import Mathlib

/-!
Shallow embedding of the channel codec in `src/sprotocol.c` (texpresso).

Modelling conventions:
* Bytes are `Nat` values (< 256 on real inputs; nothing below depends on the bound).
* The underlying duplex stream is modelled on the input side by `InStream`:
  a list of chunks, each chunk being the byte sequence one successful
  `read(2)` call can deliver, plus a `closed` flag.  When `chunks` is
  exhausted: if `closed` is true every further `read` returns 0 bytes
  (end of stream), otherwise a `read` would block forever, which the
  embedding reports as `Res.blocked`.
* On the output side, `write(2)` always succeeds; the bytes delivered to
  the stream so far are accumulated in `Channel.sent`.
* The `abort()` / `pabort()` / `mabort()` calls are all modelled as `Res.fatal`.
* C loops whose termination depends on the environment are given an
  explicit `fuel` parameter; running out of fuel yields `Res.blocked`
  (the call has not terminated after `fuel` iterations).
* The channel's input staging area (`input.buffer`, `input.pos`,
  `input.len` in C) is observable only through the unread byte range
  `buffer[pos..len)`; it is modelled as the list `Channel.staged`.
  The output staging area `output.buffer[0..pos)` is `Channel.outBuf`.
* The growable scratch buffer `t->buf` (allocation of `t->buf_size`
  bytes) is the list `Channel.buf`; `t->buf_size` is `Channel.buf.length`.
  Bytes malloc leaves uninitialized are modelled as 0.
* 32-bit values are transferred by `memcpy`, i.e. in native byte order;
  the model fixes little-endian (`u32Bytes` / `leU32`).  C `float` fields
  are modelled by their 32-bit bit patterns (the code only ever copies
  them byte for byte).
-/

set_option maxRecDepth 10000

/-! ## Definitions: the embedding of sprotocol.c -/

/-- Result of a channel operation: normal result, fatal abort
(`abort`/`pabort`/`mabort` in the C code), or a blocking `read` that never
completes (also used when the step budget `fuel` runs out). -/
inductive Res (α : Type) where
  | ok (a : α) : Res α
  | fatal : Res α
  | blocked : Res α
deriving DecidableEq

/-- Sequencing of channel operations: aborts and blocking propagate. -/
def Res.bind {α β : Type} (x : Res α) (f : α → Res β) : Res β :=
  match x with
  | .ok a => f a
  | .fatal => .fatal
  | .blocked => .blocked

/-- Extract the result of a successful operation, with a default. -/
def Res.getD {α : Type} (x : Res α) (d : α) : α :=
  match x with
  | .ok a => a
  | _ => d

/-- The input side of the underlying duplex stream. -/
structure InStream where
  chunks : List (List Nat)
  closed : Bool
deriving DecidableEq

/-- One `read(fd, _, size)` call on the stream: `none` means the call
blocks forever; `some (bs, s)` means it returns the bytes `bs`
(`bs = []` models a zero-byte read, i.e. end of stream). -/
def inRead (s : InStream) (size : Nat) : Option (List Nat × InStream) :=
  match s.chunks with
  | [] => if s.closed then some ([], s) else none
  | c :: rest =>
    let taken := c.take size
    let rem := c.drop size
    some (taken, { s with chunks := if rem.isEmpty then rest else rem :: rest })

/-- Constant `BUF_SIZE` = 4096, the staging-buffer capacity (`#define BUF_SIZE 4096`). -/
def BUF_SIZE : Nat := 4096

/-- Model of `struct channel_s`: the stream, the unread staged input bytes
(`input.buffer[input.pos .. input.len)`), the staged output bytes
(`output.buffer[0 .. output.pos)`), the bytes already delivered to the
stream, and the growable scratch buffer `buf` (whose length is
`buf_size`). -/
structure Channel where
  istream : InStream
  staged : List Nat
  outBuf : List Nat
  sent : List Nat
  buf : List Nat
deriving DecidableEq

/-- Loop body of `buffered_read_at_least`: keep calling `read` until at
least `atleast` bytes (counted from the start of the call) have arrived.
The C loop has no zero-byte-read check, so a stream at end-of-file makes
it spin forever; with `fuel` iterations this surfaces as `.blocked`. -/
def buffered_read_at_least_loop (fuel : Nat) (s : InStream) (acc : List Nat)
    (atleast size : Nat) : Res (List Nat × InStream) :=
  match fuel with
  | 0 => .blocked
  | fuel + 1 =>
    match inRead s size with
    | none => .blocked
    | some (bs, s1) =>
      let acc1 := acc ++ bs
      if atleast ≤ acc1.length then .ok (acc1, s1)
      else buffered_read_at_least_loop fuel s1 acc1 atleast (size - bs.length)

/-- Model of `buffered_read_at_least(fd, buf, atleast, size)`: aborts when
`size < atleast`, otherwise loops reading; returns the bytes gathered. -/
def buffered_read_at_least (fuel : Nat) (s : InStream) (atleast size : Nat) :
    Res (List Nat × InStream) :=
  if size < atleast then .fatal
  else buffered_read_at_least_loop fuel s [] atleast size

/-- Model of `read_all(fd, buf, size)`: reads exactly `size` bytes, retrying across
partial reads; a zero-byte read aborts (`abort()`). -/
def read_all (fuel : Nat) (s : InStream) (size : Nat) : Res (List Nat × InStream) :=
  match fuel with
  | 0 => .blocked
  | fuel + 1 =>
    if size = 0 then .ok ([], s)
    else
      match inRead s size with
      | none => .blocked
      | some (bs, s1) =>
        if bs.length = 0 then .fatal
        else
          match read_all fuel s1 (size - bs.length) with
          | .ok (bs2, s2) => .ok (bs ++ bs2, s2)
          | .fatal => .fatal
          | .blocked => .blocked

/-- Model of `write_all(fd, buf, size)`: delivers `size` bytes to the stream
(partial-write retry is invisible in the delivered byte sequence). -/
def write_all (t : Channel) (bs : List Nat) : Channel :=
  { t with sent := t.sent ++ bs }

/-- Model of `cflush`: pushes the staged output bytes to the stream. -/
def cflush (t : Channel) : Channel :=
  if t.outBuf.isEmpty then t
  else { t with sent := t.sent ++ t.outBuf, outBuf := [] }

/-- Model of `crefill(c, at_least)`: compacts the unread input to the front of the
staging buffer (invisible on the unread-byte view) and reads at least
`at_least` further bytes, up to the remaining staging capacity
`BUF_SIZE - avail`. -/
def crefill (fuel : Nat) (t : Channel) (at_least : Nat) : Res Channel :=
  match buffered_read_at_least fuel t.istream at_least (BUF_SIZE - t.staged.length) with
  | .ok (bs, s1) => .ok { t with istream := s1, staged := t.staged ++ bs }
  | .fatal => .fatal
  | .blocked => .blocked

/-- Byte values of a string, for the handshake magic and test frames. -/
def strBytes (s : String) : List Nat := s.toList.map Char.toNat

/-- Model of `HND_SERVER`, the 12 bytes the responder sends. -/
def HND_SERVER : List Nat := strBytes "TEXPRESSOS01"

/-- Model of `HND_CLIENT`, the 12 bytes the responder expects back. -/
def HND_CLIENT : List Nat := strBytes "TEXPRESSOC01"

/-- Model of `channel_handshake`: `write_all` the server magic directly to the
stream, `read_all` 12 bytes directly from the stream, and compare them
with the client magic. -/
def channel_handshake (fuel : Nat) (t : Channel) : Res (Bool × Channel) :=
  let t1 := write_all t HND_SERVER
  match read_all fuel t1.istream HND_CLIENT.length with
  | .ok (answer, s1) => .ok (answer == HND_CLIENT, { t1 with istream := s1 })
  | .fatal => .fatal
  | .blocked => .blocked

/-- Model of `channel_new(fd)` over a given stream: empty staging buffers and a
fresh 256-byte scratch buffer (malloc contents modelled as zeros). -/
def channel_new (s : InStream) : Channel :=
  { istream := s, staged := [], outBuf := [], sent := [], buf := List.replicate 256 0 }

/-- Model of `resize_buf`: double the scratch allocation, copying the old bytes to
the front of the new one (the fresh half is uninitialized, modelled 0). -/
def resize_buf (t : Channel) : Channel :=
  { t with buf := t.buf ++ List.replicate t.buf.length 0 }

/-- Model of `cgetc`: refill (at least one byte) when nothing is staged, then pop
the next staged byte. -/
def cgetc (fuel : Nat) (t : Channel) : Res (Nat × Channel) :=
  match (if t.staged.isEmpty then crefill fuel t 1 else .ok t) with
  | .ok t1 =>
    match t1.staged with
    | [] => .blocked
    | b :: rest => .ok (b, { t1 with staged := rest })
  | .fatal => .fatal
  | .blocked => .blocked

/-- Loop of `read_zstr`: copy bytes (growing the scratch buffer whenever
the cursor reaches its end) until a 0 byte has been copied; returns the
cursor position one past the terminator. -/
def read_zstr_loop (fuel : Nat) (t : Channel) (pos : Nat) : Res (Nat × Channel) :=
  match fuel with
  | 0 => .blocked
  | fuel + 1 =>
    let t1 := if pos = t.buf.length then resize_buf t else t
    match cgetc fuel t1 with
    | .ok (c, t2) =>
      let t3 := { t2 with buf := t2.buf.set pos c }
      if c ≠ 0 then read_zstr_loop fuel t3 (pos + 1)
      else .ok (pos + 1, t3)
    | .fatal => .fatal
    | .blocked => .blocked

/-- Model of `read_zstr(t, &pos)`: returns the start offset `p0` of the string, the
updated cursor, and the updated channel. -/
def read_zstr (fuel : Nat) (t : Channel) (pos : Nat) : Res (Nat × Nat × Channel) :=
  match read_zstr_loop fuel t pos with
  | .ok (pos1, t1) => .ok (pos, pos1, t1)
  | .fatal => .fatal
  | .blocked => .blocked

/-- The `while (t->buf_size < need) resize_buf(t);` loop shared by
`read_bytes` and `channel_write_buffer`. -/
def growBuf (fuel : Nat) (t : Channel) (need : Nat) : Res Channel :=
  match fuel with
  | 0 => .blocked
  | fuel + 1 =>
    if t.buf.length < need then growBuf fuel (resize_buf t) need
    else .ok t

/-- Overwrite `l` starting at index `p` with the bytes `bs` (writes out of
bounds are dropped, as `List.set` is; in the embedding every use is in
bounds after `growBuf`). -/
def setRange : List Nat → Nat → List Nat → List Nat
  | l, _, [] => l
  | l, p, b :: bs => setRange (l.set p b) (p + 1) bs

/-- Model of `read_bytes(t, pos, size)`: grow the scratch buffer to hold
`pos + size`, then copy `size` bytes into it at `pos`: from the staged
input when fully available, otherwise the staged remainder followed by a
direct `read_all` from the stream. -/
def read_bytes (fuel : Nat) (t : Channel) (pos size : Nat) : Res Channel :=
  match growBuf fuel t (pos + size) with
  | .ok t1 =>
    if size ≤ t1.staged.length then
      .ok { t1 with buf := setRange t1.buf pos (t1.staged.take size),
                    staged := t1.staged.drop size }
    else
      let isize := t1.staged.length
      let t2 := { t1 with buf := setRange t1.buf pos t1.staged, staged := [] }
      match read_all fuel t2.istream (size - isize) with
      | .ok (bs, s1) => .ok { t2 with buf := setRange t2.buf (pos + isize) bs, istream := s1 }
      | .fatal => .fatal
      | .blocked => .blocked
  | .fatal => .fatal
  | .blocked => .blocked

/-- Model of `write_bytes(t, buf, size)`: stage the bytes when they fit in the
output buffer; otherwise flush, then either write oversized payloads
directly to the stream or restage. -/
def write_bytes (t : Channel) (bs : List Nat) : Channel :=
  if t.outBuf.length + bs.length ≤ BUF_SIZE then
    { t with outBuf := t.outBuf ++ bs }
  else
    let t1 := cflush t
    if BUF_SIZE < bs.length then write_all t1 bs
    else { t1 with outBuf := bs }

/-- Little-endian byte decomposition of a 32-bit value: the four bytes a
`memcpy` of a `uint32_t` produces on a little-endian host. -/
def u32Bytes (u : Nat) : List Nat :=
  [u % 256, u / 256 % 256, u / 65536 % 256, u / 16777216 % 256]

/-- Recompose a 32-bit value from its four little-endian bytes. -/
def leU32 (a b c d : Nat) : Nat := a + 256 * b + 65536 * c + 16777216 * d

/-- Model of `try_read_u32(t, &tag)`: when nothing is staged, try one refill with
`at_least = 0` (a single `read`); if still nothing, report no data
(`none`).  Otherwise complete a 4-byte read like `read_u32`. -/
def try_read_u32 (fuel : Nat) (t : Channel) : Res (Option Nat × Channel) :=
  match (if t.staged.length = 0 then crefill fuel t 0 else .ok t) with
  | .ok t1 =>
    if t1.staged.length = 0 then .ok (none, t1)
    else
      match (if t1.staged.length < 4 then crefill fuel t1 (4 - t1.staged.length) else .ok t1) with
      | .ok t2 =>
        match t2.staged with
        | a :: b :: c :: d :: rest => .ok (some (leU32 a b c d), { t2 with staged := rest })
        | _ => .blocked
      | .fatal => .fatal
      | .blocked => .blocked
  | .fatal => .fatal
  | .blocked => .blocked

/-- Model of `read_u32`: refill until 4 bytes are staged, then consume them. -/
def read_u32 (fuel : Nat) (t : Channel) : Res (Nat × Channel) :=
  match (if t.staged.length < 4 then crefill fuel t (4 - t.staged.length) else .ok t) with
  | .ok t1 =>
    match t1.staged with
    | a :: b :: c :: d :: rest => .ok (leU32 a b c d, { t1 with staged := rest })
    | _ => .blocked
  | .fatal => .fatal
  | .blocked => .blocked

/-- Model of `write_u32`: stage the four bytes of `u`. -/
def write_u32 (t : Channel) (u : Nat) : Channel :=
  write_bytes t (u32Bytes u)

/-- Model of `read_f32`: same 4-byte transfer as `read_u32`; the float is modelled
by its 32-bit bit pattern. -/
def read_f32 (fuel : Nat) (t : Channel) : Res (Nat × Channel) :=
  match (if t.staged.length < 4 then crefill fuel t (4 - t.staged.length) else .ok t) with
  | .ok t1 =>
    match t1.staged with
    | a :: b :: c :: d :: rest => .ok (leU32 a b c d, { t1 with staged := rest })
    | _ => .blocked
  | .fatal => .fatal
  | .blocked => .blocked

/-- Model of `write_f32`: stage the four bytes of the float's bit pattern. -/
def write_f32 (t : Channel) (f : Nat) : Channel :=
  write_bytes t (u32Bytes f)

/-- Model of `PACK(a,b,c,d)` from sprotocol.c: `(d << 24) | (c << 16) | (b << 8) | a`
on byte values. -/
def PACK (a b c d : Nat) : Nat := a + 256 * b + 65536 * c + 16777216 * d

/-- Modelled from the spec: the `enum query` wire tags are declared in
`sprotocol.h`, which is not part of `src/`; following the `PACK` macro of
sprotocol.c, each variant's tag packs its four-letter name. -/
def Q_OPEN : Nat := PACK (Char.toNat 'O') (Char.toNat 'P') (Char.toNat 'E') (Char.toNat 'N')

/-- Q_READ wire tag (see `Q_OPEN` for provenance). -/
def Q_READ : Nat := PACK (Char.toNat 'R') (Char.toNat 'E') (Char.toNat 'A') (Char.toNat 'D')

/-- Q_WRIT wire tag. -/
def Q_WRIT : Nat := PACK (Char.toNat 'W') (Char.toNat 'R') (Char.toNat 'I') (Char.toNat 'T')

/-- Q_CLOS wire tag. -/
def Q_CLOS : Nat := PACK (Char.toNat 'C') (Char.toNat 'L') (Char.toNat 'O') (Char.toNat 'S')

/-- Q_SIZE wire tag. -/
def Q_SIZE : Nat := PACK (Char.toNat 'S') (Char.toNat 'I') (Char.toNat 'Z') (Char.toNat 'E')

/-- Q_SEEN wire tag. -/
def Q_SEEN : Nat := PACK (Char.toNat 'S') (Char.toNat 'E') (Char.toNat 'E') (Char.toNat 'N')

/-- Q_CHLD wire tag. -/
def Q_CHLD : Nat := PACK (Char.toNat 'C') (Char.toNat 'H') (Char.toNat 'L') (Char.toNat 'D')

/-- Q_BACK wire tag. -/
def Q_BACK : Nat := PACK (Char.toNat 'B') (Char.toNat 'A') (Char.toNat 'C') (Char.toNat 'K')

/-- Q_ACCS wire tag. -/
def Q_ACCS : Nat := PACK (Char.toNat 'A') (Char.toNat 'C') (Char.toNat 'C') (Char.toNat 'S')

/-- Q_STAT wire tag. -/
def Q_STAT : Nat := PACK (Char.toNat 'S') (Char.toNat 'T') (Char.toNat 'A') (Char.toNat 'T')

/-- Q_GPIC wire tag. -/
def Q_GPIC : Nat := PACK (Char.toNat 'G') (Char.toNat 'P') (Char.toNat 'I') (Char.toNat 'C')

/-- Q_SPIC wire tag. -/
def Q_SPIC : Nat := PACK (Char.toNat 'S') (Char.toNat 'P') (Char.toNat 'I') (Char.toNat 'C')

/-- The twelve query tags `channel_read_query` dispatches on. -/
def queryTags : List Nat :=
  [Q_OPEN, Q_READ, Q_WRIT, Q_CLOS, Q_SIZE, Q_SEEN, Q_CHLD, Q_BACK, Q_ACCS, Q_STAT, Q_GPIC, Q_SPIC]

/-- A_DONE wire tag (see `Q_OPEN` for provenance of the tag values). -/
def A_DONE : Nat := PACK (Char.toNat 'D') (Char.toNat 'O') (Char.toNat 'N') (Char.toNat 'E')

/-- A_PASS wire tag. -/
def A_PASS : Nat := PACK (Char.toNat 'P') (Char.toNat 'A') (Char.toNat 'S') (Char.toNat 'S')

/-- A_SIZE wire tag. -/
def A_SIZE : Nat := PACK (Char.toNat 'S') (Char.toNat 'I') (Char.toNat 'Z') (Char.toNat 'E')

/-- A_READ wire tag. -/
def A_READ : Nat := PACK (Char.toNat 'R') (Char.toNat 'E') (Char.toNat 'A') (Char.toNat 'D')

/-- A_FORK wire tag. -/
def A_FORK : Nat := PACK (Char.toNat 'F') (Char.toNat 'O') (Char.toNat 'R') (Char.toNat 'K')

/-- A_ACCS wire tag. -/
def A_ACCS : Nat := PACK (Char.toNat 'A') (Char.toNat 'C') (Char.toNat 'C') (Char.toNat 'S')

/-- A_STAT wire tag. -/
def A_STAT : Nat := PACK (Char.toNat 'S') (Char.toNat 'T') (Char.toNat 'A') (Char.toNat 'T')

/-- A_OPEN wire tag. -/
def A_OPEN : Nat := PACK (Char.toNat 'O') (Char.toNat 'P') (Char.toNat 'E') (Char.toNat 'N')

/-- A_GPIC wire tag. -/
def A_GPIC : Nat := PACK (Char.toNat 'G') (Char.toNat 'P') (Char.toNat 'I') (Char.toNat 'C')

/-- Modelled from the spec: `ACCS_OK` is declared in `sprotocol.h`, which
is not part of `src/`; only its identity (success) matters to the claims,
never its numeric value. -/
def ACCS_OK : Nat := 0

/-- Model of `query_t`: the C struct holds the tag, the timestamp, and a union of
the per-variant fields.  The union is flattened into one record (the
decoder only ever writes the fields of the decoded variant); pointers
into the scratch buffer (`char *path` etc.) are modelled as offsets into
`Channel.buf`. -/
structure Query where
  tag : Nat := 0
  time : Nat := 0
  open_fid : Nat := 0
  open_path : Nat := 0
  open_mode : Nat := 0
  read_fid : Nat := 0
  read_pos : Nat := 0
  read_size : Nat := 0
  writ_fid : Nat := 0
  writ_pos : Nat := 0
  writ_size : Nat := 0
  writ_buf : Nat := 0
  clos_fid : Nat := 0
  size_fid : Nat := 0
  seen_fid : Nat := 0
  seen_pos : Nat := 0
  chld_pid : Nat := 0
  back_pid : Nat := 0
  back_cid : Nat := 0
  back_exitcode : Nat := 0
  accs_path : Nat := 0
  accs_flags : Nat := 0
  stat_path : Nat := 0
  gpic_path : Nat := 0
  gpic_type : Nat := 0
  gpic_page : Nat := 0
  spic_path : Nat := 0
  spic_type : Nat := 0
  spic_page : Nat := 0
  spic_b0 : Nat := 0
  spic_b1 : Nat := 0
  spic_b2 : Nat := 0
  spic_b3 : Nat := 0
deriving DecidableEq

/-- Model of `channel_read_query(t, r)`: read the tag with `try_read_u32` (no data
at all reports no query pending), read the timestamp, then dispatch on
the tag; an unrecognized tag aborts (`mabort`). -/
def channel_read_query (fuel : Nat) (t : Channel) (r : Query) :
    Res (Bool × Query × Channel) :=
  (try_read_u32 fuel t).bind fun (otag, t) =>
  match otag with
  | none => .ok (false, r, t)
  | some tag =>
    let r := { r with tag := tag }
    (read_u32 fuel t).bind fun (time, t) =>
    let r := { r with time := time }
    if tag = Q_OPEN then
      (read_u32 fuel t).bind fun (fid, t) =>
      (read_zstr fuel t 0).bind fun (pos_path, pos, t) =>
      (read_zstr fuel t pos).bind fun (pos_mode, _pos, t) =>
      .ok (true, { r with open_fid := fid, open_path := pos_path, open_mode := pos_mode }, t)
    else if tag = Q_READ then
      (read_u32 fuel t).bind fun (fid, t) =>
      (read_u32 fuel t).bind fun (pos, t) =>
      (read_u32 fuel t).bind fun (size, t) =>
      .ok (true, { r with read_fid := fid, read_pos := pos, read_size := size }, t)
    else if tag = Q_WRIT then
      (read_u32 fuel t).bind fun (fid, t) =>
      (read_u32 fuel t).bind fun (pos, t) =>
      (read_u32 fuel t).bind fun (size, t) =>
      (read_bytes fuel t 0 size).bind fun t =>
      .ok (true, { r with writ_fid := fid, writ_pos := pos, writ_size := size, writ_buf := 0 }, t)
    else if tag = Q_CLOS then
      (read_u32 fuel t).bind fun (fid, t) =>
      .ok (true, { r with clos_fid := fid }, t)
    else if tag = Q_SIZE then
      (read_u32 fuel t).bind fun (fid, t) =>
      .ok (true, { r with size_fid := fid }, t)
    else if tag = Q_SEEN then
      (read_u32 fuel t).bind fun (fid, t) =>
      (read_u32 fuel t).bind fun (pos, t) =>
      .ok (true, { r with seen_fid := fid, seen_pos := pos }, t)
    else if tag = Q_CHLD then
      (read_u32 fuel t).bind fun (pid, t) =>
      .ok (true, { r with chld_pid := pid }, t)
    else if tag = Q_BACK then
      (read_u32 fuel t).bind fun (pid, t) =>
      (read_u32 fuel t).bind fun (cid, t) =>
      (read_u32 fuel t).bind fun (exitcode, t) =>
      .ok (true, { r with back_pid := pid, back_cid := cid, back_exitcode := exitcode }, t)
    else if tag = Q_ACCS then
      (read_zstr fuel t 0).bind fun (pos_path, _pos, t) =>
      (read_u32 fuel t).bind fun (flags, t) =>
      .ok (true, { r with accs_path := pos_path, accs_flags := flags }, t)
    else if tag = Q_STAT then
      (read_zstr fuel t 0).bind fun (pos_path, _pos, t) =>
      .ok (true, { r with stat_path := pos_path }, t)
    else if tag = Q_GPIC then
      (read_zstr fuel t 0).bind fun (pos_path, _pos, t) =>
      (read_u32 fuel t).bind fun (ty, t) =>
      (read_u32 fuel t).bind fun (page, t) =>
      .ok (true, { r with gpic_path := pos_path, gpic_type := ty, gpic_page := page }, t)
    else if tag = Q_SPIC then
      (read_zstr fuel t 0).bind fun (pos_path, _pos, t) =>
      (read_u32 fuel t).bind fun (ty, t) =>
      (read_u32 fuel t).bind fun (page, t) =>
      (read_f32 fuel t).bind fun (b0, t) =>
      (read_f32 fuel t).bind fun (b1, t) =>
      (read_f32 fuel t).bind fun (b2, t) =>
      (read_f32 fuel t).bind fun (b3, t) =>
      .ok (true, { r with spic_path := pos_path, spic_type := ty, spic_page := page,
                          spic_b0 := b0, spic_b1 := b1, spic_b2 := b2, spic_b3 := b3 }, t)
    else
      .fatal

/-- Modelled from the spec: `answer_t` is declared in `sprotocol.h`, which
is not part of `src/`.  It is a tag plus a union of per-variant fields;
because `accs.flag` and `stat.flag` are both the leading 32-bit field of
their union members, they occupy the same storage, so the model carries a
single `flag` field that plays both roles (the A_STAT gating quirk the
spec documents).  Stat timestamps are (sec, nsec) pairs. -/
structure Answer where
  tag : Nat := 0
  read_size : Nat := 0
  flag : Nat := 0
  stat_dev : Nat := 0
  stat_ino : Nat := 0
  stat_mode : Nat := 0
  stat_nlink : Nat := 0
  stat_uid : Nat := 0
  stat_gid : Nat := 0
  stat_rdev : Nat := 0
  stat_size : Nat := 0
  stat_blksize : Nat := 0
  stat_blocks : Nat := 0
  stat_atime_sec : Nat := 0
  stat_atime_nsec : Nat := 0
  stat_ctime_sec : Nat := 0
  stat_ctime_nsec : Nat := 0
  stat_mtime_sec : Nat := 0
  stat_mtime_nsec : Nat := 0
  size_size : Nat := 0
  open_size : Nat := 0
  gpic_b0 : Nat := 0
  gpic_b1 : Nat := 0
  gpic_b2 : Nat := 0
  gpic_b3 : Nat := 0
deriving DecidableEq

/-- Model of `write_time`: two u32 writes, seconds then nanoseconds. -/
def write_time (t : Channel) (sec nsec : Nat) : Channel :=
  write_u32 (write_u32 t sec) nsec

/-- Model of `channel_write_answer(t, a)`: write the tag, then the variant's fields;
A_READ/A_OPEN blobs are written from the channel's scratch buffer; the
A_STAT record is written only when the (shared) flag equals `ACCS_OK`;
an unrecognized tag aborts (`mabort`). -/
def channel_write_answer (t : Channel) (a : Answer) : Res Channel :=
  let t := write_u32 t a.tag
  if a.tag = A_DONE then .ok t
  else if a.tag = A_PASS then .ok t
  else if a.tag = A_FORK then .ok t
  else if a.tag = A_READ then
    let t := write_u32 t a.read_size
    .ok (write_bytes t (t.buf.take a.read_size))
  else if a.tag = A_ACCS then
    .ok (write_u32 t a.flag)
  else if a.tag = A_STAT then
    let t := write_u32 t a.flag
    if a.flag = ACCS_OK then
      let t := write_u32 t a.stat_dev
      let t := write_u32 t a.stat_ino
      let t := write_u32 t a.stat_mode
      let t := write_u32 t a.stat_nlink
      let t := write_u32 t a.stat_uid
      let t := write_u32 t a.stat_gid
      let t := write_u32 t a.stat_rdev
      let t := write_u32 t a.stat_size
      let t := write_u32 t a.stat_blksize
      let t := write_u32 t a.stat_blocks
      let t := write_time t a.stat_atime_sec a.stat_atime_nsec
      let t := write_time t a.stat_ctime_sec a.stat_ctime_nsec
      let t := write_time t a.stat_mtime_sec a.stat_mtime_nsec
      .ok t
    else .ok t
  else if a.tag = A_SIZE then
    .ok (write_u32 t a.size_size)
  else if a.tag = A_OPEN then
    let t := write_u32 t a.open_size
    .ok (write_bytes t (t.buf.take a.open_size))
  else if a.tag = A_GPIC then
    let t := write_f32 t a.gpic_b0
    let t := write_f32 t a.gpic_b1
    let t := write_f32 t a.gpic_b2
    let t := write_f32 t a.gpic_b3
    .ok t
  else .fatal

/-- Model of `channel_flush`. -/
def channel_flush (t : Channel) : Channel := cflush t

/-- Model of `channel_write_buffer(t, n)`: grow the scratch buffer until it holds
at least `n` bytes (the caller then fills it directly). -/
def channel_write_buffer (fuel : Nat) (t : Channel) (n : Nat) : Res Channel :=
  growBuf fuel t n

/-- The bytes handed to the output side so far, in delivery order:
already delivered (`sent`) followed by staged (`outBuf`). -/
def outSeq (t : Channel) : List Nat := t.sent ++ t.outBuf

/-- The Bool a decode result carries (true for non-ok results, so that a
false result pins down the no-data path). -/
def retBool (x : Res (Bool × Query × Channel)) : Bool :=
  match x with
  | .ok p => p.1
  | _ => true

/-- The 13-field stat record on the wire (10 scalars + 3 timestamps). -/
def statRecordBytes (a : Answer) : List Nat :=
  u32Bytes a.stat_dev ++ u32Bytes a.stat_ino ++ u32Bytes a.stat_mode ++
  u32Bytes a.stat_nlink ++ u32Bytes a.stat_uid ++ u32Bytes a.stat_gid ++
  u32Bytes a.stat_rdev ++ u32Bytes a.stat_size ++ u32Bytes a.stat_blksize ++
  u32Bytes a.stat_blocks ++
  u32Bytes a.stat_atime_sec ++ u32Bytes a.stat_atime_nsec ++
  u32Bytes a.stat_ctime_sec ++ u32Bytes a.stat_ctime_nsec ++
  u32Bytes a.stat_mtime_sec ++ u32Bytes a.stat_mtime_nsec

/-- No byte is obtainable from the stream right now: the single `read`
`crefill(_, 0)` issues returns zero bytes. -/
def noByteAvailable (s : InStream) : Bool :=
  match inRead s BUF_SIZE with
  | some (bs, _) => bs.isEmpty
  | none => false

/-- The scratch capacity grows only by doubling: `b` is `a` times a power
of two. -/
def BufGrown (a b : Nat) : Prop := ∃ k, b = a * 2 ^ k

/-- The scratch-capacity invariant: 256 times a power of two. -/
def scratchInv (n : Nat) : Prop := ∃ k, n = 256 * 2 ^ k

/-- A sequence of `n` decode calls on the same channel (each reusing the
caller's query record, as the server loop does). -/
def runReads (fuel : Nat) : Nat → Channel → Query → Res (Query × Channel)
  | 0, t, r => .ok (r, t)
  | n + 1, t, r =>
    (channel_read_query fuel t r).bind fun (_, r1, t1) => runReads fuel n t1 r1

/-- A default (zero-initialized) query record, as a caller would supply. -/
def q0 : Query := {}

/-- A default (zero-initialized) answer record. -/
def a0 : Answer := {}

/-- A fresh channel over a stream that will deliver the given chunks. -/
def mkChannel (chunks : List (List Nat)) (closed : Bool) : Channel :=
  channel_new { chunks := chunks, closed := closed }

/-- Read the NUL-terminated string stored at offset `off` of a scratch
buffer (the bytes a decoded `char *` field points at). -/
def zstrAt (buf : List Nat) (off : Nat) : List Nat :=
  (buf.drop off).takeWhile (fun b => b != 0)

/-- The C1 wire frame: `u32(Q_OPEN) u32(42) u32(3) "/tmp/a\0" "r\0"`. -/
def c1Frame : List Nat :=
  u32Bytes Q_OPEN ++ u32Bytes 42 ++ u32Bytes 3 ++ strBytes "/tmp/a" ++ [0] ++ strBytes "r" ++ [0]

/-- Check that a decode outcome is exactly the Q_OPEN query of the C1
scenario: success, tag Q_OPEN, time 42, fid 3, and the strings read back
out of the scratch buffer equal "/tmp/a" and "r". -/
def c1Expect (res : Res (Bool × Query × Channel)) : Bool :=
  match res with
  | .ok (ret, q, t) =>
    ret && q.tag == Q_OPEN && q.time == 42 && q.open_fid == 3 &&
    zstrAt t.buf q.open_path == strBytes "/tmp/a" &&
    zstrAt t.buf q.open_mode == strBytes "r"
  | _ => false

/-- Decoding the C1 frame on a fresh channel. -/
def c1Check : Bool := c1Expect (channel_read_query 64 (mkChannel [c1Frame] false) q0)

/-- The C1 frame split after its first `k` bytes: `k` bytes already staged,
the rest still in the stream. -/
def c3PartialCheck : Bool :=
  [1, 2, 3].all fun k =>
    c1Expect (channel_read_query 64
      { mkChannel [c1Frame.drop k] false with staged := c1Frame.take k } q0)

/-- The channel of the C7 scenario: the payload bytes 1..5 are staged at
the start of the scratch buffer (as a handler would leave them via
`channel_write_buffer`). -/
def c7Channel : Channel :=
  { mkChannel [] true with buf := [1, 2, 3, 4, 5] ++ List.replicate 251 0 }

/-- The frame the C7 scenario delivers to the stream. -/
def c7Sent : List Nat :=
  match channel_write_answer c7Channel { a0 with tag := A_READ, read_size := 5 } with
  | .ok t => (channel_flush t).sent
  | _ => []

/-- The C7 claim as stated: the delivered frame is
`u32(A_READ) u32(5) <payload>` AND is 12 bytes long. -/
def c7ClaimCheck : Bool :=
  c7Sent == u32Bytes A_READ ++ u32Bytes 5 ++ [1, 2, 3, 4, 5] && c7Sent.length == 12

/-- The amended C7: same frame, whose actual length is 13 bytes
(two u32s plus five payload bytes). -/
def c7Check : Bool :=
  c7Sent == u32Bytes A_READ ++ u32Bytes 5 ++ [1, 2, 3, 4, 5] && c7Sent.length == 13

/-- Channel of the C5 growth scenario: the path "/tmp/a" has already been
decoded to offset 0 of the scratch buffer and the string cursor has
advanced to 250, close to the initial 256-byte capacity; the next
(mode-like) string waits on the stream. -/
def c5Channel : Channel :=
  { mkChannel [[109, 110, 111, 112, 113, 114, 115, 116, 0]] false with
      buf := strBytes "/tmp/a" ++ [0] ++ List.replicate 249 0 }

/-- Decoding the next string from `c5Channel` crosses the 256-byte
capacity, forcing growth mid-string: afterwards the path at offset 0 is
still intact, the new string reads back correctly, and the capacity is
512 = 256·2. -/
def c5GrowthCheck : Bool :=
  match read_zstr 64 c5Channel 250 with
  | .ok (p0, pos1, t) =>
    p0 == 250 && pos1 == 259 &&
    zstrAt t.buf 0 == strBytes "/tmp/a" &&
    zstrAt t.buf 250 == [109, 110, 111, 112, 113, 114, 115, 116] &&
    t.buf.length == 512
  | _ => false

/-! ## Theorems -/

theorem Res.bind_eq_ok {α β : Type} {x : Res α} {f : α → Res β} {y : β}
    (h : x.bind f = .ok y) : ∃ a, x = .ok a ∧ f a = .ok y := by
  cases x with
  | ok a => exact ⟨a, rfl, h⟩
  | fatal => exact Res.noConfusion h
  | blocked => exact Res.noConfusion h

theorem cflush_spec (t : Channel) :
    (cflush t).sent = t.sent ++ t.outBuf ∧ (cflush t).outBuf = [] := by
  unfold cflush
  split
  · rename_i h
    rw [List.isEmpty_iff] at h
    simp [h]
  · simp

theorem write_bytes_outSeq (t : Channel) (bs : List Nat) (h : t.outBuf.length ≤ BUF_SIZE) :
    outSeq (write_bytes t bs) = outSeq t ++ bs ∧
    (write_bytes t bs).outBuf.length ≤ BUF_SIZE := by
  have hc := cflush_spec t
  unfold write_bytes
  split
  · rename_i hfit
    constructor
    · simp [outSeq]
    · simp only [List.length_append] at *
      omega
  · split
    · constructor
      · simp [outSeq, write_all, hc.1, hc.2]
      · simp [write_all, hc.2]
    · rename_i hbig
      constructor
      · simp [outSeq, hc.1, hc.2]
      · simp only []
        omega

theorem writeList_outSeq (l : List (List Nat)) : ∀ t : Channel, t.outBuf.length ≤ BUF_SIZE →
    outSeq (List.foldl write_bytes t l) = outSeq t ++ l.flatten ∧
    (List.foldl write_bytes t l).outBuf.length ≤ BUF_SIZE := by
  induction l with
  | nil => intro t h; simp [h]
  | cons c cs ih =>
    intro t h
    have hw := write_bytes_outSeq t c h
    have hrest := ih (write_bytes t c) hw.2
    simp only [List.foldl_cons, List.flatten_cons]
    refine ⟨?_, hrest.2⟩
    rw [hrest.1, hw.1, List.append_assoc]

/-! ## C2: A_STAT record gating -/

theorem write_u32_outSeq (t : Channel) (u : Nat) (h : t.outBuf.length ≤ BUF_SIZE) :
    outSeq (write_u32 t u) = outSeq t ++ u32Bytes u ∧
    (write_u32 t u).outBuf.length ≤ BUF_SIZE :=
  write_bytes_outSeq t (u32Bytes u) h

/-! ## C6: handshake -/

theorem inRead_length_le (s : InStream) (size : Nat) (bs : List Nat) (s1 : InStream)
    (h : inRead s size = some (bs, s1)) : bs.length ≤ size := by
  obtain ⟨chunks, closed⟩ := s
  cases chunks with
  | nil =>
    simp only [inRead] at h
    split at h
    · simp only [Option.some.injEq, Prod.mk.injEq] at h
      obtain ⟨rfl, -⟩ := h
      simp
    · simp at h
  | cons c rest =>
    simp only [inRead, Option.some.injEq, Prod.mk.injEq] at h
    obtain ⟨rfl, -⟩ := h
    simp only [List.length_take]
    omega

theorem read_all_ok_length (fuel : Nat) : ∀ (s : InStream) (size : Nat) (bs : List Nat)
    (s1 : InStream), read_all fuel s size = .ok (bs, s1) → bs.length = size := by
  induction fuel with
  | zero =>
    intro s size bs s1 h
    simp [read_all] at h
  | succ n ih =>
    intro s size bs s1 h
    unfold read_all at h
    split at h
    · rename_i hsz
      simp only [Res.ok.injEq, Prod.mk.injEq] at h
      obtain ⟨h1, -⟩ := h
      simp [← h1, hsz]
    · rename_i hsz
      split at h
      · simp at h
      · rename_i bs0 s0 hi
        split at h
        · simp at h
        · rename_i hz
          split at h
          · rename_i bs2 s2 hr
            simp only [Res.ok.injEq, Prod.mk.injEq] at h
            obtain ⟨h1, -⟩ := h
            have hrec := ih _ _ _ _ hr
            have hle := inRead_length_le s size bs0 s0 hi
            rw [← h1]
            simp only [List.length_append]
            omega
          · simp at h
          · simp at h

/-! ## dispatch helpers -/

theorem leU32_u32Bytes (u : Nat) (h : u < 4294967296) :
    leU32 (u % 256) (u / 256 % 256) (u / 65536 % 256) (u / 16777216 % 256) = u := by
  unfold leU32
  omega

theorem try_read_u32_staged_full (fuel : Nat) (t : Channel) (a b c d : Nat) (rest : List Nat)
    (hst : t.staged = a :: b :: c :: d :: rest) :
    try_read_u32 fuel t = .ok (some (leU32 a b c d), { t with staged := rest }) := by
  have hz : ¬ ((rest.length + 1 + 1 + 1 + 1 : Nat) = 0) := by omega
  have hlt : ¬ ((rest.length + 1 + 1 + 1 + 1 : Nat) < 4) := by omega
  unfold try_read_u32
  simp [hst, hz, hlt]

theorem read_u32_staged_full (fuel : Nat) (t : Channel) (a b c d : Nat) (rest : List Nat)
    (hst : t.staged = a :: b :: c :: d :: rest) :
    read_u32 fuel t = .ok (leU32 a b c d, { t with staged := rest }) := by
  have hlt : ¬ ((rest.length + 1 + 1 + 1 + 1 : Nat) < 4) := by omega
  unfold read_u32
  simp [hst, hlt]

/-- On a stream at end of file (`read` always returns 0 bytes) the loop of
`buffered_read_at_least` never gathers the missing bytes and never exits:
whatever the iteration budget, it is still running. -/
theorem buffered_read_at_least_loop_eof (fuel : Nat) :
    ∀ acc atleast size, acc.length < atleast →
      buffered_read_at_least_loop fuel ⟨[], true⟩ acc atleast size = .blocked := by
  induction fuel with
  | zero => intro acc atleast size _; rfl
  | succ n ih =>
    intro acc atleast size h
    simp only [buffered_read_at_least_loop, inRead, if_true, List.append_nil]
    rw [if_neg (by omega)]
    exact ih acc atleast size h

theorem read_query_false_elim (fuel : Nat) (t : Channel) (r r' : Query) (t' : Channel)
    (h : channel_read_query fuel t r = .ok (false, r', t')) :
    try_read_u32 fuel t = .ok (none, t') ∧ r' = r := by
  unfold channel_read_query at h
  cases htry : try_read_u32 fuel t with
  | fatal => rw [htry] at h; simp [Res.bind] at h
  | blocked => rw [htry] at h; simp [Res.bind] at h
  | ok p =>
    obtain ⟨otag, t1⟩ := p
    rw [htry] at h
    simp only [Res.bind] at h
    cases otag with
    | none =>
      simp only [Res.ok.injEq, Prod.mk.injEq] at h
      obtain ⟨-, h2, h3⟩ := h
      subst h3
      exact ⟨rfl, h2.symm⟩
    | some tag =>
      exfalso
      dsimp only [] at h
      obtain ⟨⟨time, t2⟩, -, h⟩ := Res.bind_eq_ok h
      by_cases e1 : tag = Q_OPEN
      · rw [if_pos e1] at h
        obtain ⟨⟨fid, t3⟩, -, h⟩ := Res.bind_eq_ok h
        obtain ⟨⟨pp, pos1, t4⟩, -, h⟩ := Res.bind_eq_ok h
        obtain ⟨⟨pm, pos2, t5⟩, -, h⟩ := Res.bind_eq_ok h
        exact Bool.noConfusion (congrArg retBool h)
      rw [if_neg e1] at h
      by_cases e2 : tag = Q_READ
      · rw [if_pos e2] at h
        obtain ⟨⟨fid, t3⟩, -, h⟩ := Res.bind_eq_ok h
        obtain ⟨⟨pos, t4⟩, -, h⟩ := Res.bind_eq_ok h
        obtain ⟨⟨size, t5⟩, -, h⟩ := Res.bind_eq_ok h
        exact Bool.noConfusion (congrArg retBool h)
      rw [if_neg e2] at h
      by_cases e3 : tag = Q_WRIT
      · rw [if_pos e3] at h
        obtain ⟨⟨fid, t3⟩, -, h⟩ := Res.bind_eq_ok h
        obtain ⟨⟨pos, t4⟩, -, h⟩ := Res.bind_eq_ok h
        obtain ⟨⟨size, t5⟩, -, h⟩ := Res.bind_eq_ok h
        obtain ⟨t6, -, h⟩ := Res.bind_eq_ok h
        exact Bool.noConfusion (congrArg retBool h)
      rw [if_neg e3] at h
      by_cases e4 : tag = Q_CLOS
      · rw [if_pos e4] at h
        obtain ⟨⟨fid, t3⟩, -, h⟩ := Res.bind_eq_ok h
        exact Bool.noConfusion (congrArg retBool h)
      rw [if_neg e4] at h
      by_cases e5 : tag = Q_SIZE
      · rw [if_pos e5] at h
        obtain ⟨⟨fid, t3⟩, -, h⟩ := Res.bind_eq_ok h
        exact Bool.noConfusion (congrArg retBool h)
      rw [if_neg e5] at h
      by_cases e6 : tag = Q_SEEN
      · rw [if_pos e6] at h
        obtain ⟨⟨fid, t3⟩, -, h⟩ := Res.bind_eq_ok h
        obtain ⟨⟨pos, t4⟩, -, h⟩ := Res.bind_eq_ok h
        exact Bool.noConfusion (congrArg retBool h)
      rw [if_neg e6] at h
      by_cases e7 : tag = Q_CHLD
      · rw [if_pos e7] at h
        obtain ⟨⟨pid, t3⟩, -, h⟩ := Res.bind_eq_ok h
        exact Bool.noConfusion (congrArg retBool h)
      rw [if_neg e7] at h
      by_cases e8 : tag = Q_BACK
      · rw [if_pos e8] at h
        obtain ⟨⟨pid, t3⟩, -, h⟩ := Res.bind_eq_ok h
        obtain ⟨⟨cid, t4⟩, -, h⟩ := Res.bind_eq_ok h
        obtain ⟨⟨ec, t5⟩, -, h⟩ := Res.bind_eq_ok h
        exact Bool.noConfusion (congrArg retBool h)
      rw [if_neg e8] at h
      by_cases e9 : tag = Q_ACCS
      · rw [if_pos e9] at h
        obtain ⟨⟨pp, pos1, t3⟩, -, h⟩ := Res.bind_eq_ok h
        obtain ⟨⟨flags, t4⟩, -, h⟩ := Res.bind_eq_ok h
        exact Bool.noConfusion (congrArg retBool h)
      rw [if_neg e9] at h
      by_cases e10 : tag = Q_STAT
      · rw [if_pos e10] at h
        obtain ⟨⟨pp, pos1, t3⟩, -, h⟩ := Res.bind_eq_ok h
        exact Bool.noConfusion (congrArg retBool h)
      rw [if_neg e10] at h
      by_cases e11 : tag = Q_GPIC
      · rw [if_pos e11] at h
        obtain ⟨⟨pp, pos1, t3⟩, -, h⟩ := Res.bind_eq_ok h
        obtain ⟨⟨ty, t4⟩, -, h⟩ := Res.bind_eq_ok h
        obtain ⟨⟨page, t5⟩, -, h⟩ := Res.bind_eq_ok h
        exact Bool.noConfusion (congrArg retBool h)
      rw [if_neg e11] at h
      by_cases e12 : tag = Q_SPIC
      · rw [if_pos e12] at h
        obtain ⟨⟨pp, pos1, t3⟩, -, h⟩ := Res.bind_eq_ok h
        obtain ⟨⟨ty, t4⟩, -, h⟩ := Res.bind_eq_ok h
        obtain ⟨⟨page, t5⟩, -, h⟩ := Res.bind_eq_ok h
        obtain ⟨⟨b0, t6⟩, -, h⟩ := Res.bind_eq_ok h
        obtain ⟨⟨b1, t7⟩, -, h⟩ := Res.bind_eq_ok h
        obtain ⟨⟨b2, t8⟩, -, h⟩ := Res.bind_eq_ok h
        obtain ⟨⟨b3, t9⟩, -, h⟩ := Res.bind_eq_ok h
        exact Bool.noConfusion (congrArg retBool h)
      rw [if_neg e12] at h
      exact Res.noConfusion h

theorem crefill_zero_elim (fuel : Nat) (t t2 : Channel) (h : crefill fuel t 0 = .ok t2) :
    ∃ bs s1, inRead t.istream (BUF_SIZE - t.staged.length) = some (bs, s1) ∧
      t2 = { t with istream := s1, staged := t.staged ++ bs } := by
  unfold crefill buffered_read_at_least at h
  rw [if_neg (by omega)] at h
  cases fuel with
  | zero => simp [buffered_read_at_least_loop] at h
  | succ n =>
    unfold buffered_read_at_least_loop at h
    cases hi : inRead t.istream (BUF_SIZE - t.staged.length) with
    | none => rw [hi] at h; simp at h
    | some p =>
      obtain ⟨bs, s1⟩ := p
      rw [hi] at h
      dsimp only [] at h
      rw [if_pos (Nat.zero_le _)] at h
      dsimp only [] at h
      simp only [Res.ok.injEq] at h
      exact ⟨bs, s1, rfl, by rw [← h]; simp⟩

theorem try_read_none_elim (fuel : Nat) (t t1 : Channel)
    (h : try_read_u32 fuel t = .ok (none, t1)) :
    t.staged = [] ∧ t1.staged = [] ∧
    t1.outBuf = t.outBuf ∧ t1.sent = t.sent ∧ t1.buf = t.buf ∧
    inRead t.istream BUF_SIZE = some ([], t1.istream) := by
  unfold try_read_u32 at h
  by_cases hz : t.staged.length = 0
  · rw [if_pos hz] at h
    have hse : t.staged = [] := List.length_eq_zero.mp hz
    cases hc : crefill fuel t 0 with
    | fatal => rw [hc] at h; simp at h
    | blocked => rw [hc] at h; simp at h
    | ok t2 =>
      rw [hc] at h
      dsimp only [] at h
      obtain ⟨bs, s1, hi, ht2⟩ := crefill_zero_elim fuel t t2 hc
      by_cases hz2 : t2.staged.length = 0
      · rw [if_pos hz2] at h
        simp only [Res.ok.injEq, Prod.mk.injEq] at h
        obtain ⟨-, h2⟩ := h
        subst h2
        have hbs : bs = [] := by
          have := congrArg Channel.staged ht2
          simp [hse] at this
          rw [List.length_eq_zero] at hz2
          rw [hz2] at this
          exact this.symm
        subst hbs
        have hs1 : t2.istream = s1 := by rw [ht2]
        refine ⟨hse, List.length_eq_zero.mp hz2, ?_, ?_, ?_, ?_⟩
        · rw [ht2]
        · rw [ht2]
        · rw [ht2]
        · rw [hs1, ← hi, hse]
          simp [BUF_SIZE]
      · rw [if_neg hz2] at h
        cases hc2 : (if t2.staged.length < 4 then crefill fuel t2 (4 - t2.staged.length)
            else Res.ok t2) with
        | fatal => rw [hc2] at h; simp at h
        | blocked => rw [hc2] at h; simp at h
        | ok t3 =>
          rw [hc2] at h
          dsimp only [] at h
          rcases hs3 : t3.staged with - | ⟨a, l1⟩
          · rw [hs3] at h; simp at h
          rcases l1 with - | ⟨b, l2⟩
          · rw [hs3] at h; simp at h
          rcases l2 with - | ⟨c, l3⟩
          · rw [hs3] at h; simp at h
          rcases l3 with - | ⟨d, rest⟩
          · rw [hs3] at h; simp at h
          · rw [hs3] at h; simp at h
  · rw [if_neg hz] at h
    dsimp only [] at h
    rw [if_neg hz] at h
    cases hc2 : (if t.staged.length < 4 then crefill fuel t (4 - t.staged.length)
        else Res.ok t) with
    | fatal => rw [hc2] at h; simp at h
    | blocked => rw [hc2] at h; simp at h
    | ok t3 =>
      rw [hc2] at h
      dsimp only [] at h
      rcases hs3 : t3.staged with - | ⟨a, l1⟩
      · rw [hs3] at h; simp at h
      rcases l1 with - | ⟨b, l2⟩
      · rw [hs3] at h; simp at h
      rcases l2 with - | ⟨c, l3⟩
      · rw [hs3] at h; simp at h
      rcases l3 with - | ⟨d, rest⟩
      · rw [hs3] at h; simp at h
      · rw [hs3] at h; simp at h

theorem inRead_nil_stream (s s1 : InStream) (h : inRead s BUF_SIZE = some ([], s1)) :
    s1.chunks.flatten = s.chunks.flatten ∧ s1.closed = s.closed := by
  obtain ⟨chunks, closed⟩ := s
  cases chunks with
  | nil =>
    simp only [inRead] at h
    split at h
    · simp only [Option.some.injEq, Prod.mk.injEq] at h
      rw [← h.2]
      exact ⟨rfl, rfl⟩
    · simp at h
  | cons c rest =>
    simp only [inRead, Option.some.injEq, Prod.mk.injEq] at h
    obtain ⟨h1, h2⟩ := h
    have hc : c = [] := by
      rcases List.take_eq_nil_iff.mp h1 with hn | hn
      · first
        | exact hn
        | exact absurd hn (by decide)
      · first
        | exact hn
        | exact absurd hn (by decide)
    subst hc
    rw [← h2]
    simp

theorem BufGrown.rfl {a : Nat} : BufGrown a a := ⟨0, by simp⟩

theorem BufGrown.of_eq {a b : Nat} (h : b = a) : BufGrown a b := ⟨0, by simp [h]⟩

theorem BufGrown.trans {a b c : Nat} (h1 : BufGrown a b) (h2 : BufGrown b c) :
    BufGrown a c := by
  obtain ⟨k1, hk1⟩ := h1
  obtain ⟨k2, hk2⟩ := h2
  exact ⟨k1 + k2, by rw [hk2, hk1, pow_add]; ring⟩

theorem scratchInv_grown {a b : Nat} (h1 : scratchInv a) (h2 : BufGrown a b) :
    scratchInv b := by
  obtain ⟨k1, hk1⟩ := h1
  obtain ⟨k2, hk2⟩ := h2
  exact ⟨k1 + k2, by rw [hk2, hk1, pow_add]; ring⟩

theorem setRange_length : ∀ (bs : List Nat) (l : List Nat) (p : Nat),
    (setRange l p bs).length = l.length := by
  intro bs
  induction bs with
  | nil => intro l p; rfl
  | cons b bs ih =>
    intro l p
    rw [setRange, ih, List.length_set]

theorem resize_buf_spec (t : Channel) :
    (resize_buf t).buf.length = 2 * t.buf.length ∧
    ∀ i, i < t.buf.length → (resize_buf t).buf.get? i = t.buf.get? i := by
  constructor
  · simp [resize_buf]; ring
  · intro i hi
    simp only [resize_buf]
    exact List.get?_append hi

theorem crefill_buf (fuel : Nat) (t : Channel) (n : Nat) (t2 : Channel)
    (h : crefill fuel t n = .ok t2) : t2.buf = t.buf := by
  unfold crefill at h
  cases hb : buffered_read_at_least fuel t.istream n (BUF_SIZE - t.staged.length) with
  | fatal => rw [hb] at h; simp at h
  | blocked => rw [hb] at h; simp at h
  | ok p =>
    obtain ⟨bs, s1⟩ := p
    rw [hb] at h
    simp only [Res.ok.injEq] at h
    rw [← h]

theorem cgetc_buf (fuel : Nat) (t : Channel) (c : Nat) (t2 : Channel)
    (h : cgetc fuel t = .ok (c, t2)) : t2.buf = t.buf := by
  unfold cgetc at h
  cases hc : (if t.staged.isEmpty then crefill fuel t 1 else Res.ok t) with
  | fatal => rw [hc] at h; simp at h
  | blocked => rw [hc] at h; simp at h
  | ok t3 =>
    have hb3 : t3.buf = t.buf := by
      by_cases he : t.staged.isEmpty
      · rw [if_pos he] at hc
        exact crefill_buf fuel t 1 t3 hc
      · rw [if_neg he] at hc
        simp only [Res.ok.injEq] at hc
        rw [hc]
    rw [hc] at h
    dsimp only [] at h
    rcases hs3 : t3.staged with - | ⟨b, rest⟩
    · rw [hs3] at h; simp at h
    · rw [hs3] at h
      simp only [Res.ok.injEq, Prod.mk.injEq] at h
      rw [← h.2]
      exact hb3

theorem read_u32_buf (fuel : Nat) (t : Channel) (v : Nat) (t2 : Channel)
    (h : read_u32 fuel t = .ok (v, t2)) : t2.buf = t.buf := by
  unfold read_u32 at h
  cases hc : (if t.staged.length < 4 then crefill fuel t (4 - t.staged.length)
      else Res.ok t) with
  | fatal => rw [hc] at h; simp at h
  | blocked => rw [hc] at h; simp at h
  | ok t3 =>
    have hb3 : t3.buf = t.buf := by
      by_cases hlt : t.staged.length < 4
      · rw [if_pos hlt] at hc
        exact crefill_buf fuel t _ t3 hc
      · rw [if_neg hlt] at hc
        simp only [Res.ok.injEq] at hc
        rw [hc]
    rw [hc] at h
    dsimp only [] at h
    rcases hs3 : t3.staged with - | ⟨a, l1⟩
    · rw [hs3] at h; simp at h
    rcases l1 with - | ⟨b, l2⟩
    · rw [hs3] at h; simp at h
    rcases l2 with - | ⟨c1, l3⟩
    · rw [hs3] at h; simp at h
    rcases l3 with - | ⟨d, rest⟩
    · rw [hs3] at h; simp at h
    · rw [hs3] at h
      simp only [Res.ok.injEq, Prod.mk.injEq] at h
      rw [← h.2]
      exact hb3

theorem read_f32_buf (fuel : Nat) (t : Channel) (v : Nat) (t2 : Channel)
    (h : read_f32 fuel t = .ok (v, t2)) : t2.buf = t.buf := by
  unfold read_f32 at h
  cases hc : (if t.staged.length < 4 then crefill fuel t (4 - t.staged.length)
      else Res.ok t) with
  | fatal => rw [hc] at h; simp at h
  | blocked => rw [hc] at h; simp at h
  | ok t3 =>
    have hb3 : t3.buf = t.buf := by
      by_cases hlt : t.staged.length < 4
      · rw [if_pos hlt] at hc
        exact crefill_buf fuel t _ t3 hc
      · rw [if_neg hlt] at hc
        simp only [Res.ok.injEq] at hc
        rw [hc]
    rw [hc] at h
    dsimp only [] at h
    rcases hs3 : t3.staged with - | ⟨a, l1⟩
    · rw [hs3] at h; simp at h
    rcases l1 with - | ⟨b, l2⟩
    · rw [hs3] at h; simp at h
    rcases l2 with - | ⟨c1, l3⟩
    · rw [hs3] at h; simp at h
    rcases l3 with - | ⟨d, rest⟩
    · rw [hs3] at h; simp at h
    · rw [hs3] at h
      simp only [Res.ok.injEq, Prod.mk.injEq] at h
      rw [← h.2]
      exact hb3

theorem try_read_u32_buf (fuel : Nat) (t : Channel) (o : Option Nat) (t2 : Channel)
    (h : try_read_u32 fuel t = .ok (o, t2)) : t2.buf = t.buf := by
  unfold try_read_u32 at h
  cases hc : (if t.staged.length = 0 then crefill fuel t 0 else Res.ok t) with
  | fatal => rw [hc] at h; simp at h
  | blocked => rw [hc] at h; simp at h
  | ok t1 =>
    have hb1 : t1.buf = t.buf := by
      by_cases he : t.staged.length = 0
      · rw [if_pos he] at hc
        exact crefill_buf fuel t 0 t1 hc
      · rw [if_neg he] at hc
        simp only [Res.ok.injEq] at hc
        rw [hc]
    rw [hc] at h
    dsimp only [] at h
    by_cases hz : t1.staged.length = 0
    · rw [if_pos hz] at h
      simp only [Res.ok.injEq, Prod.mk.injEq] at h
      rw [← h.2]
      exact hb1
    · rw [if_neg hz] at h
      cases hc2 : (if t1.staged.length < 4 then crefill fuel t1 (4 - t1.staged.length)
          else Res.ok t1) with
      | fatal => rw [hc2] at h; simp at h
      | blocked => rw [hc2] at h; simp at h
      | ok t3 =>
        have hb3 : t3.buf = t1.buf := by
          by_cases hlt : t1.staged.length < 4
          · rw [if_pos hlt] at hc2
            exact crefill_buf fuel t1 _ t3 hc2
          · rw [if_neg hlt] at hc2
            simp only [Res.ok.injEq] at hc2
            rw [hc2]
        rw [hc2] at h
        dsimp only [] at h
        rcases hs3 : t3.staged with - | ⟨a, l1⟩
        · rw [hs3] at h; simp at h
        rcases l1 with - | ⟨b, l2⟩
        · rw [hs3] at h; simp at h
        rcases l2 with - | ⟨c1, l3⟩
        · rw [hs3] at h; simp at h
        rcases l3 with - | ⟨d, rest⟩
        · rw [hs3] at h; simp at h
        · rw [hs3] at h
          simp only [Res.ok.injEq, Prod.mk.injEq] at h
          rw [← h.2]
          rw [hb3, hb1]

theorem read_zstr_loop_spec (fuel : Nat) : ∀ (t : Channel) (pos pos' : Nat) (t' : Channel),
    read_zstr_loop fuel t pos = .ok (pos', t') →
    BufGrown t.buf.length t'.buf.length ∧
    (∀ i, i < pos → t'.buf.get? i = t.buf.get? i) ∧
    (pos ≤ t.buf.length → 0 < t.buf.length → pos' ≤ t'.buf.length ∧ pos < pos') := by
  induction fuel with
  | zero => intro t pos pos' t' h; simp [read_zstr_loop] at h
  | succ n ih =>
    intro t pos pos' t' h
    unfold read_zstr_loop at h
    dsimp only [] at h
    cases hg : cgetc n (if pos = t.buf.length then resize_buf t else t) with
    | fatal => rw [hg] at h; simp at h
    | blocked => rw [hg] at h; simp at h
    | ok p =>
      obtain ⟨c, t2⟩ := p
      rw [hg] at h
      dsimp only [] at h
      have hres := resize_buf_spec t
      have hb2 : t2.buf = (if pos = t.buf.length then resize_buf t else t).buf :=
        cgetc_buf n _ c t2 hg
      have hgrown1 : BufGrown t.buf.length t2.buf.length := by
        rw [hb2]
        by_cases hp : pos = t.buf.length
        · rw [if_pos hp, hres.1]; exact ⟨1, by ring⟩
        · rw [if_neg hp]; exact BufGrown.rfl
      have hframe1 : ∀ i, i < pos → t2.buf.get? i = t.buf.get? i := by
        intro i hi
        rw [hb2]
        by_cases hp : pos = t.buf.length
        · rw [if_pos hp]; exact hres.2 i (by omega)
        · rw [if_neg hp]
      have hlen3 : (t2.buf.set pos c).length = t2.buf.length := List.length_set t2.buf pos c
      have hframe3 : ∀ i, i < pos → (t2.buf.set pos c).get? i = t.buf.get? i := by
        intro i hi
        rw [List.get?_set_ne c t2.buf (by omega : pos ≠ i)]
        exact hframe1 i hi
      have hbound2 : pos ≤ t.buf.length → 0 < t.buf.length → pos < t2.buf.length := by
        intro h1 h2
        rw [hb2]
        by_cases hp : pos = t.buf.length
        · rw [if_pos hp, hres.1]; omega
        · rw [if_neg hp]; omega
      by_cases hcz : c ≠ 0
      · rw [if_pos hcz] at h
        have hrec := ih { t2 with buf := t2.buf.set pos c } (pos + 1) pos' t' h
        refine ⟨hgrown1.trans ((BufGrown.of_eq hlen3).trans hrec.1), ?_, ?_⟩
        · intro i hi
          rw [hrec.2.1 i (by omega)]
          exact hframe3 i hi
        · intro h1 h2
          have hlt := hbound2 h1 h2
          have := hrec.2.2 (by simp only [hlen3]; omega) (by simp only [hlen3]; omega)
          omega
      · rw [if_neg hcz] at h
        simp only [Res.ok.injEq, Prod.mk.injEq] at h
        obtain ⟨hp', ht'⟩ := h
        subst ht'
        refine ⟨hgrown1.trans (BufGrown.of_eq hlen3), hframe3, ?_⟩
        intro h1 h2
        have hlt := hbound2 h1 h2
        simp only [hlen3]
        omega

theorem read_zstr_spec (fuel : Nat) (t : Channel) (pos p0 pos' : Nat) (t' : Channel)
    (h : read_zstr fuel t pos = .ok (p0, pos', t')) :
    p0 = pos ∧
    BufGrown t.buf.length t'.buf.length ∧
    (∀ i, i < pos → t'.buf.get? i = t.buf.get? i) ∧
    (pos ≤ t.buf.length → 0 < t.buf.length → pos' ≤ t'.buf.length ∧ pos < pos') := by
  unfold read_zstr at h
  cases hl : read_zstr_loop fuel t pos with
  | fatal => rw [hl] at h; simp at h
  | blocked => rw [hl] at h; simp at h
  | ok p =>
    obtain ⟨pos1, t1⟩ := p
    rw [hl] at h
    simp only [Res.ok.injEq, Prod.mk.injEq] at h
    obtain ⟨h1, h2, h3⟩ := h
    subst h1; subst h2; subst h3
    have := read_zstr_loop_spec fuel t pos pos1 t1 hl
    exact ⟨rfl, this.1, this.2.1, this.2.2⟩

theorem growBuf_spec (fuel : Nat) : ∀ (t : Channel) (need : Nat) (t' : Channel),
    growBuf fuel t need = .ok t' →
    BufGrown t.buf.length t'.buf.length ∧ need ≤ t'.buf.length := by
  induction fuel with
  | zero => intro t need t' h; simp [growBuf] at h
  | succ n ih =>
    intro t need t' h
    unfold growBuf at h
    by_cases hlt : t.buf.length < need
    · rw [if_pos hlt] at h
      have hrec := ih (resize_buf t) need t' h
      have hres := resize_buf_spec t
      exact ⟨BufGrown.trans ⟨1, by rw [hres.1]; ring⟩ hrec.1, hrec.2⟩
    · rw [if_neg hlt] at h
      simp only [Res.ok.injEq] at h
      subst h
      exact ⟨BufGrown.rfl, by omega⟩

theorem read_bytes_spec (fuel : Nat) (t : Channel) (pos size : Nat) (t' : Channel)
    (h : read_bytes fuel t pos size = .ok t') :
    BufGrown t.buf.length t'.buf.length ∧ pos + size ≤ t'.buf.length := by
  unfold read_bytes at h
  cases hg : growBuf fuel t (pos + size) with
  | fatal => rw [hg] at h; simp at h
  | blocked => rw [hg] at h; simp at h
  | ok t1 =>
    have hgs := growBuf_spec fuel t (pos + size) t1 hg
    rw [hg] at h
    dsimp only [] at h
    by_cases hfit : size ≤ t1.staged.length
    · rw [if_pos hfit] at h
      simp only [Res.ok.injEq] at h
      subst h
      constructor
      · exact hgs.1.trans (BufGrown.of_eq (by simp [setRange_length]))
      · simp only [setRange_length]
        exact hgs.2
    · rw [if_neg hfit] at h
      cases hr : read_all fuel { t1 with
          buf := setRange t1.buf pos t1.staged, staged := [] }.istream
          (size - t1.staged.length) with
      | fatal => rw [hr] at h; simp at h
      | blocked => rw [hr] at h; simp at h
      | ok p =>
        obtain ⟨bs, s1⟩ := p
        rw [hr] at h
        dsimp only [] at h
        simp only [Res.ok.injEq] at h
        subst h
        constructor
        · exact hgs.1.trans (BufGrown.of_eq (by simp [setRange_length]))
        · simp only [setRange_length]
          exact hgs.2

theorem read_query_grown (fuel : Nat) (t : Channel) (r : Query) (b : Bool) (q : Query)
    (t' : Channel) (h : channel_read_query fuel t r = .ok (b, q, t')) :
    BufGrown t.buf.length t'.buf.length := by
  unfold channel_read_query at h
  cases htry : try_read_u32 fuel t with
  | fatal => rw [htry] at h; simp [Res.bind] at h
  | blocked => rw [htry] at h; simp [Res.bind] at h
  | ok p =>
    obtain ⟨otag, t1⟩ := p
    rw [htry] at h
    simp only [Res.bind] at h
    have hb1 : t1.buf = t.buf := try_read_u32_buf fuel t otag t1 htry
    cases otag with
    | none =>
      simp only [Res.ok.injEq, Prod.mk.injEq] at h
      obtain ⟨-, -, h3⟩ := h
      subst h3
      exact BufGrown.of_eq (by rw [hb1])
    | some tag =>
      dsimp only [] at h
      obtain ⟨⟨time, t2⟩, hx0, h⟩ := Res.bind_eq_ok h
      have hb2 : t2.buf = t.buf := by rw [read_u32_buf fuel t1 time t2 hx0, hb1]
      by_cases e1 : tag = Q_OPEN
      · rw [if_pos e1] at h
        obtain ⟨⟨fid, t3⟩, hx1, h⟩ := Res.bind_eq_ok h
        obtain ⟨⟨pp, pos1, t4⟩, hx2, h⟩ := Res.bind_eq_ok h
        obtain ⟨⟨pm, pos2, t5⟩, hx3, h⟩ := Res.bind_eq_ok h
        have ht' : t' = t5 := by
          simp only [Res.ok.injEq, Prod.mk.injEq] at h
          exact h.2.2.symm
        rw [ht']
        have g1 : t3.buf = t2.buf := read_u32_buf fuel t2 fid t3 hx1
        have g2 := (read_zstr_spec fuel t3 0 pp pos1 t4 hx2).2.1
        have g3 := (read_zstr_spec fuel t4 pos1 pm pos2 t5 hx3).2.1
        exact (BufGrown.of_eq (by rw [g1, hb2])).trans (g2.trans g3)
      rw [if_neg e1] at h
      by_cases e2 : tag = Q_READ
      · rw [if_pos e2] at h
        obtain ⟨⟨fid, t3⟩, hx1, h⟩ := Res.bind_eq_ok h
        obtain ⟨⟨pos, t4⟩, hx2, h⟩ := Res.bind_eq_ok h
        obtain ⟨⟨size, t5⟩, hx3, h⟩ := Res.bind_eq_ok h
        have ht' : t' = t5 := by
          simp only [Res.ok.injEq, Prod.mk.injEq] at h
          exact h.2.2.symm
        rw [ht']
        have g1 : t3.buf = t2.buf := read_u32_buf fuel t2 fid t3 hx1
        have g2 : t4.buf = t3.buf := read_u32_buf fuel t3 pos t4 hx2
        have g3 : t5.buf = t4.buf := read_u32_buf fuel t4 size t5 hx3
        exact BufGrown.of_eq (by rw [g3, g2, g1, hb2])
      rw [if_neg e2] at h
      by_cases e3 : tag = Q_WRIT
      · rw [if_pos e3] at h
        obtain ⟨⟨fid, t3⟩, hx1, h⟩ := Res.bind_eq_ok h
        obtain ⟨⟨pos, t4⟩, hx2, h⟩ := Res.bind_eq_ok h
        obtain ⟨⟨size, t5⟩, hx3, h⟩ := Res.bind_eq_ok h
        obtain ⟨t6, hx4, h⟩ := Res.bind_eq_ok h
        have ht' : t' = t6 := by
          simp only [Res.ok.injEq, Prod.mk.injEq] at h
          exact h.2.2.symm
        rw [ht']
        have g1 : t3.buf = t2.buf := read_u32_buf fuel t2 fid t3 hx1
        have g2 : t4.buf = t3.buf := read_u32_buf fuel t3 pos t4 hx2
        have g3 : t5.buf = t4.buf := read_u32_buf fuel t4 size t5 hx3
        have g4 := (read_bytes_spec fuel t5 0 size t6 hx4).1
        exact (BufGrown.of_eq (by rw [g3, g2, g1, hb2])).trans g4
      rw [if_neg e3] at h
      by_cases e4 : tag = Q_CLOS
      · rw [if_pos e4] at h
        obtain ⟨⟨fid, t3⟩, hx1, h⟩ := Res.bind_eq_ok h
        have ht' : t' = t3 := by
          simp only [Res.ok.injEq, Prod.mk.injEq] at h
          exact h.2.2.symm
        rw [ht']
        exact BufGrown.of_eq (by rw [read_u32_buf fuel t2 fid t3 hx1, hb2])
      rw [if_neg e4] at h
      by_cases e5 : tag = Q_SIZE
      · rw [if_pos e5] at h
        obtain ⟨⟨fid, t3⟩, hx1, h⟩ := Res.bind_eq_ok h
        have ht' : t' = t3 := by
          simp only [Res.ok.injEq, Prod.mk.injEq] at h
          exact h.2.2.symm
        rw [ht']
        exact BufGrown.of_eq (by rw [read_u32_buf fuel t2 fid t3 hx1, hb2])
      rw [if_neg e5] at h
      by_cases e6 : tag = Q_SEEN
      · rw [if_pos e6] at h
        obtain ⟨⟨fid, t3⟩, hx1, h⟩ := Res.bind_eq_ok h
        obtain ⟨⟨pos, t4⟩, hx2, h⟩ := Res.bind_eq_ok h
        have ht' : t' = t4 := by
          simp only [Res.ok.injEq, Prod.mk.injEq] at h
          exact h.2.2.symm
        rw [ht']
        have g1 : t3.buf = t2.buf := read_u32_buf fuel t2 fid t3 hx1
        have g2 : t4.buf = t3.buf := read_u32_buf fuel t3 pos t4 hx2
        exact BufGrown.of_eq (by rw [g2, g1, hb2])
      rw [if_neg e6] at h
      by_cases e7 : tag = Q_CHLD
      · rw [if_pos e7] at h
        obtain ⟨⟨pid, t3⟩, hx1, h⟩ := Res.bind_eq_ok h
        have ht' : t' = t3 := by
          simp only [Res.ok.injEq, Prod.mk.injEq] at h
          exact h.2.2.symm
        rw [ht']
        exact BufGrown.of_eq (by rw [read_u32_buf fuel t2 pid t3 hx1, hb2])
      rw [if_neg e7] at h
      by_cases e8 : tag = Q_BACK
      · rw [if_pos e8] at h
        obtain ⟨⟨pid, t3⟩, hx1, h⟩ := Res.bind_eq_ok h
        obtain ⟨⟨cid, t4⟩, hx2, h⟩ := Res.bind_eq_ok h
        obtain ⟨⟨ec, t5⟩, hx3, h⟩ := Res.bind_eq_ok h
        have ht' : t' = t5 := by
          simp only [Res.ok.injEq, Prod.mk.injEq] at h
          exact h.2.2.symm
        rw [ht']
        have g1 : t3.buf = t2.buf := read_u32_buf fuel t2 pid t3 hx1
        have g2 : t4.buf = t3.buf := read_u32_buf fuel t3 cid t4 hx2
        have g3 : t5.buf = t4.buf := read_u32_buf fuel t4 ec t5 hx3
        exact BufGrown.of_eq (by rw [g3, g2, g1, hb2])
      rw [if_neg e8] at h
      by_cases e9 : tag = Q_ACCS
      · rw [if_pos e9] at h
        obtain ⟨⟨pp, pos1, t3⟩, hx1, h⟩ := Res.bind_eq_ok h
        obtain ⟨⟨flags, t4⟩, hx2, h⟩ := Res.bind_eq_ok h
        have ht' : t' = t4 := by
          simp only [Res.ok.injEq, Prod.mk.injEq] at h
          exact h.2.2.symm
        rw [ht']
        have g1 := (read_zstr_spec fuel t2 0 pp pos1 t3 hx1).2.1
        have g2 : t4.buf = t3.buf := read_u32_buf fuel t3 flags t4 hx2
        exact (BufGrown.of_eq (by rw [hb2])).trans (g1.trans (BufGrown.of_eq (by rw [g2])))
      rw [if_neg e9] at h
      by_cases e10 : tag = Q_STAT
      · rw [if_pos e10] at h
        obtain ⟨⟨pp, pos1, t3⟩, hx1, h⟩ := Res.bind_eq_ok h
        have ht' : t' = t3 := by
          simp only [Res.ok.injEq, Prod.mk.injEq] at h
          exact h.2.2.symm
        rw [ht']
        have g1 := (read_zstr_spec fuel t2 0 pp pos1 t3 hx1).2.1
        exact (BufGrown.of_eq (by rw [hb2])).trans g1
      rw [if_neg e10] at h
      by_cases e11 : tag = Q_GPIC
      · rw [if_pos e11] at h
        obtain ⟨⟨pp, pos1, t3⟩, hx1, h⟩ := Res.bind_eq_ok h
        obtain ⟨⟨ty, t4⟩, hx2, h⟩ := Res.bind_eq_ok h
        obtain ⟨⟨page, t5⟩, hx3, h⟩ := Res.bind_eq_ok h
        have ht' : t' = t5 := by
          simp only [Res.ok.injEq, Prod.mk.injEq] at h
          exact h.2.2.symm
        rw [ht']
        have g1 := (read_zstr_spec fuel t2 0 pp pos1 t3 hx1).2.1
        have g2 : t4.buf = t3.buf := read_u32_buf fuel t3 ty t4 hx2
        have g3 : t5.buf = t4.buf := read_u32_buf fuel t4 page t5 hx3
        exact (BufGrown.of_eq (by rw [hb2])).trans (g1.trans (BufGrown.of_eq (by rw [g3, g2])))
      rw [if_neg e11] at h
      by_cases e12 : tag = Q_SPIC
      · rw [if_pos e12] at h
        obtain ⟨⟨pp, pos1, t3⟩, hx1, h⟩ := Res.bind_eq_ok h
        obtain ⟨⟨ty, t4⟩, hx2, h⟩ := Res.bind_eq_ok h
        obtain ⟨⟨page, t5⟩, hx3, h⟩ := Res.bind_eq_ok h
        obtain ⟨⟨b0, t6⟩, hx4, h⟩ := Res.bind_eq_ok h
        obtain ⟨⟨b1, t7⟩, hx5, h⟩ := Res.bind_eq_ok h
        obtain ⟨⟨b2, t8⟩, hx6, h⟩ := Res.bind_eq_ok h
        obtain ⟨⟨b3, t9⟩, hx7, h⟩ := Res.bind_eq_ok h
        have ht' : t' = t9 := by
          simp only [Res.ok.injEq, Prod.mk.injEq] at h
          exact h.2.2.symm
        rw [ht']
        have g1 := (read_zstr_spec fuel t2 0 pp pos1 t3 hx1).2.1
        have g2 : t4.buf = t3.buf := read_u32_buf fuel t3 ty t4 hx2
        have g3 : t5.buf = t4.buf := read_u32_buf fuel t4 page t5 hx3
        have g4 : t6.buf = t5.buf := read_f32_buf fuel t5 b0 t6 hx4
        have g5 : t7.buf = t6.buf := read_f32_buf fuel t6 b1 t7 hx5
        have g6 : t8.buf = t7.buf := read_f32_buf fuel t7 b2 t8 hx6
        have g7 : t9.buf = t8.buf := read_f32_buf fuel t8 b3 t9 hx7
        exact (BufGrown.of_eq (by rw [hb2])).trans
          (g1.trans (BufGrown.of_eq (by rw [g7, g6, g5, g4, g3, g2])))
      rw [if_neg e12] at h
      exact Res.noConfusion h

theorem runReads_grown (fuel : Nat) : ∀ (n : Nat) (t : Channel) (r q : Query) (t' : Channel),
    runReads fuel n t r = .ok (q, t') → BufGrown t.buf.length t'.buf.length := by
  intro n
  induction n with
  | zero =>
    intro t r q t' h
    simp only [runReads, Res.ok.injEq, Prod.mk.injEq] at h
    exact BufGrown.of_eq (by rw [h.2])
  | succ m ih =>
    intro t r q t' h
    unfold runReads at h
    obtain ⟨⟨b, r1, t1⟩, hx, h⟩ := Res.bind_eq_ok h
    exact (read_query_grown fuel t r b r1 t1 hx).trans (ih t1 r1 q t' h)

/-- C1: decoding the byte frame `u32(Q_OPEN) u32(42) u32(3) "/tmp/a\0" "r\0"`
with `channel_read_query` returns true and yields tag = Q_OPEN, time = 42,
fid = 3, and path/mode strings (read out of the scratch buffer) equal to
"/tmp/a" and "r". -/
theorem c1_decode_open_concrete : c1Check = true := by decide

/-- C2: when `channel_write_answer` encodes an A_STAT answer it writes the
tag and the flag, and writes the 13-field StatRecord only when the flag
(the single 32-bit storage shared by `accs.flag` and `stat.flag` in the C
union) equals `ACCS_OK`; when the flag does not, no record bytes are
written and the frame is exactly 8 bytes. -/
theorem c2_stat_record_gated_on_flag (t : Channel) (a : Answer)
    (htag : a.tag = A_STAT) (h : t.outBuf.length ≤ BUF_SIZE) :
    ∃ t1, channel_write_answer t a = .ok t1 ∧
      outSeq t1 = outSeq t ++ u32Bytes A_STAT ++ u32Bytes a.flag ++
        (if a.flag = ACCS_OK then statRecordBytes a else []) ∧
      (a.flag ≠ ACCS_OK → (outSeq t1).length = (outSeq t).length + 8) := by
  unfold channel_write_answer
  rw [htag]
  rw [if_neg (by decide : ¬ (A_STAT = A_DONE)), if_neg (by decide : ¬ (A_STAT = A_PASS)),
      if_neg (by decide : ¬ (A_STAT = A_FORK)), if_neg (by decide : ¬ (A_STAT = A_READ)),
      if_neg (by decide : ¬ (A_STAT = A_ACCS)), if_pos rfl]
  have h1 := write_u32_outSeq t A_STAT h
  have h2 := write_u32_outSeq _ a.flag h1.2
  by_cases hf : a.flag = ACCS_OK
  · rw [if_pos hf]
    have h3 := write_u32_outSeq _ a.stat_dev h2.2
    have h4 := write_u32_outSeq _ a.stat_ino h3.2
    have h5 := write_u32_outSeq _ a.stat_mode h4.2
    have h6 := write_u32_outSeq _ a.stat_nlink h5.2
    have h7 := write_u32_outSeq _ a.stat_uid h6.2
    have h8 := write_u32_outSeq _ a.stat_gid h7.2
    have h9 := write_u32_outSeq _ a.stat_rdev h8.2
    have h10 := write_u32_outSeq _ a.stat_size h9.2
    have h11 := write_u32_outSeq _ a.stat_blksize h10.2
    have h12 := write_u32_outSeq _ a.stat_blocks h11.2
    have h13 := write_u32_outSeq _ a.stat_atime_sec h12.2
    have h14 := write_u32_outSeq _ a.stat_atime_nsec h13.2
    have h15 := write_u32_outSeq _ a.stat_ctime_sec h14.2
    have h16 := write_u32_outSeq _ a.stat_ctime_nsec h15.2
    have h17 := write_u32_outSeq _ a.stat_mtime_sec h16.2
    have h18 := write_u32_outSeq _ a.stat_mtime_nsec h17.2
    refine ⟨_, rfl, ?_, fun hcon => absurd hf hcon⟩
    simp only [write_time]
    rw [if_pos hf, h18.1, h17.1, h16.1, h15.1, h14.1, h13.1, h12.1, h11.1, h10.1,
        h9.1, h8.1, h7.1, h6.1, h5.1, h4.1, h3.1, h2.1, h1.1]
    simp [statRecordBytes, List.append_assoc]
  · rw [if_neg hf]
    refine ⟨_, rfl, ?_, ?_⟩
    · rw [if_neg hf, h2.1, h1.1]
      simp [List.append_assoc]
    · intro _
      rw [h2.1, h1.1]
      simp [u32Bytes]

/-- Witness for C2 at a concrete A_STAT answer with a non-OK flag. -/
theorem c2_witness :
    ∃ t1, channel_write_answer (mkChannel [] true) { a0 with tag := A_STAT, flag := 1 } = .ok t1 ∧
      outSeq t1 = outSeq (mkChannel [] true) ++ u32Bytes A_STAT ++ u32Bytes 1 ++
        (if (1 : Nat) = ACCS_OK then statRecordBytes { a0 with tag := A_STAT, flag := 1 } else []) ∧
      ((1 : Nat) ≠ ACCS_OK → (outSeq t1).length = (outSeq (mkChannel [] true)).length + 8) :=
  c2_stat_record_gated_on_flag (mkChannel [] true) { a0 with tag := A_STAT, flag := 1 }
    (by decide) (by decide)

/-- C3: `channel_read_query` reports "no query pending" (false) only when
no input byte at all is available — the staging buffer is empty and the
one `read` issued yields zero bytes; and when only 1–3 bytes of the
leading tag are staged (the rest arriving later on the stream), the
decode completes normally instead of returning false or erroring
(checked for every split point of the C1 frame). -/
theorem c3_no_data_vs_partial :
    (∀ (fuel : Nat) (t : Channel) (r r' : Query) (t' : Channel),
        channel_read_query fuel t r = .ok (false, r', t') →
        t.staged = [] ∧ noByteAvailable t.istream = true) ∧
    c3PartialCheck = true := by
  constructor
  · intro fuel t r r' t' h
    obtain ⟨htry, -⟩ := read_query_false_elim fuel t r r' t' h
    obtain ⟨hs, -, -, -, -, hi⟩ := try_read_none_elim fuel t t' htry
    refine ⟨hs, ?_⟩
    unfold noByteAvailable
    rw [hi]
    rfl
  · decide

/-- Witness for C3 on a closed empty stream. -/
theorem c3_witness :
    (mkChannel [] true).staged = [] ∧ noByteAvailable (mkChannel [] true).istream = true :=
  c3_no_data_vs_partial.1 1 (mkChannel [] true) q0 q0 (mkChannel [] true) (by decide)

/-- C4: calling `crefill` with `at_least = 1` on a channel whose stream is
closed (every `read` returns zero bytes) never terminates: for every
iteration budget the refill is still looping, so it neither aborts (as
the spec requires) nor returns short.  This contradicts the claim — the
code lacks the zero-byte-read abort check that `read_all` and `write_all`
have. -/
theorem c4_crefill_closed_stream_loops_forever (fuel : Nat) :
    crefill fuel (channel_new ⟨[], true⟩) 1 = .blocked := by
  have h : buffered_read_at_least fuel ⟨[], true⟩ 1 (BUF_SIZE - 0) = .blocked := by
    unfold buffered_read_at_least
    rw [if_neg (by decide)]
    exact buffered_read_at_least_loop_eof fuel [] 1 BUF_SIZE (by decide)
  unfold crefill
  simp only [channel_new, List.length_nil] at h ⊢
  rw [h]

/-- C5: scratch-buffer invariants.  (1) `resize_buf` exactly doubles the
capacity and copies every old byte; (2) over any sequence of decode
calls the capacity stays 256 times a power of two; (3) after
`read_bytes(pos, size)` the capacity is at least `pos + size`;
(4) `read_zstr` never touches positions below its start cursor (so
sibling fields decoded earlier stay intact) and ends within capacity;
(5) concretely, a string decode that crosses the 256-byte capacity (as
Q_OPEN's mode does after its path) grows the buffer to 512 = 256·2 and
leaves the previously decoded path at offset 0 intact. -/
theorem c5_scratch_growth_invariants :
    (∀ t : Channel, (resize_buf t).buf.length = 2 * t.buf.length ∧
        ∀ i, i < t.buf.length → (resize_buf t).buf.get? i = t.buf.get? i) ∧
    (∀ (fuel n : Nat) (t : Channel) (r q : Query) (t' : Channel),
        scratchInv t.buf.length → runReads fuel n t r = .ok (q, t') →
        scratchInv t'.buf.length) ∧
    (∀ (fuel : Nat) (t : Channel) (pos size : Nat) (t' : Channel),
        read_bytes fuel t pos size = .ok t' → pos + size ≤ t'.buf.length) ∧
    (∀ (fuel : Nat) (t : Channel) (pos p0 pos' : Nat) (t' : Channel),
        read_zstr fuel t pos = .ok (p0, pos', t') →
        (∀ i, i < pos → t'.buf.get? i = t.buf.get? i) ∧
        (pos ≤ t.buf.length → 0 < t.buf.length → pos' ≤ t'.buf.length)) ∧
    c5GrowthCheck = true := by
  refine ⟨resize_buf_spec, ?_, ?_, ?_, by decide⟩
  · intro fuel n t r q t' hinv h
    exact scratchInv_grown hinv (runReads_grown fuel n t r q t' h)
  · intro fuel t pos size t' h
    exact (read_bytes_spec fuel t pos size t' h).2
  · intro fuel t pos p0 pos' t' h
    have hs := read_zstr_spec fuel t pos p0 pos' t' h
    exact ⟨hs.2.2.1, fun h1 h2 => (hs.2.2.2 h1 h2).1⟩

/-- Witness for C5 at concrete decodes. -/
theorem c5_witness :
    scratchInv (((runReads 64 1 (mkChannel [c1Frame] false) q0).getD
        (q0, mkChannel [c1Frame] false)).2.buf.length) ∧
    (0 + 5 ≤ ((read_bytes 64 (mkChannel [[9, 9, 9, 9, 9]] false) 0 5).getD
        (mkChannel [[9, 9, 9, 9, 9]] false)).buf.length) ∧
    (∀ i, i < 0 →
        (((read_zstr 64 (mkChannel [[104, 105, 0]] false) 0).getD
          (0, 0, mkChannel [[104, 105, 0]] false)).2.2.buf.get? i =
          (mkChannel [[104, 105, 0]] false).buf.get? i)) :=
  ⟨c5_scratch_growth_invariants.2.1 64 1 (mkChannel [c1Frame] false) q0
      ((runReads 64 1 (mkChannel [c1Frame] false) q0).getD (q0, mkChannel [c1Frame] false)).1
      ((runReads 64 1 (mkChannel [c1Frame] false) q0).getD (q0, mkChannel [c1Frame] false)).2
      ⟨0, by decide⟩ (by decide),
   c5_scratch_growth_invariants.2.2.1 64 (mkChannel [[9, 9, 9, 9, 9]] false) 0 5
      ((read_bytes 64 (mkChannel [[9, 9, 9, 9, 9]] false) 0 5).getD
        (mkChannel [[9, 9, 9, 9, 9]] false)) (by decide),
   (c5_scratch_growth_invariants.2.2.2.1 64 (mkChannel [[104, 105, 0]] false) 0 0 3
      (((read_zstr 64 (mkChannel [[104, 105, 0]] false) 0).getD
        (0, 0, mkChannel [[104, 105, 0]] false)).2.2) (by decide)).1⟩

/-- C6: `channel_handshake` writes exactly the 12 bytes `TEXPRESSOS01` to
the stream, reads exactly 12 bytes, and returns true iff they equal
`TEXPRESSOC01`; any other 12-byte sequence yields false without
aborting. -/
theorem c6_handshake_magic (fuel : Nat) (t : Channel) (bs : List Nat) (s1 : InStream)
    (h : read_all fuel t.istream 12 = .ok (bs, s1)) :
    bs.length = 12 ∧ HND_SERVER.length = 12 ∧
    channel_handshake fuel t =
      .ok (bs == HND_CLIENT, { t with sent := t.sent ++ HND_SERVER, istream := s1 }) := by
  refine ⟨read_all_ok_length fuel t.istream 12 bs s1 h, by decide, ?_⟩
  unfold channel_handshake write_all
  simp only []
  rw [show HND_CLIENT.length = 12 from by decide]
  rw [h]

/-- Witness for C6: 12 wrong bytes give a false, non-fatal handshake. -/
theorem c6_witness :
    (strBytes "TEXPRESSOX01").length = 12 ∧ HND_SERVER.length = 12 ∧
    channel_handshake 13 (mkChannel [strBytes "TEXPRESSOX01"] false) =
      .ok ((strBytes "TEXPRESSOX01") == HND_CLIENT,
        { mkChannel [strBytes "TEXPRESSOX01"] false with
            sent := (mkChannel [strBytes "TEXPRESSOX01"] false).sent ++ HND_SERVER,
            istream := ⟨[], false⟩ }) :=
  c6_handshake_magic 13 (mkChannel [strBytes "TEXPRESSOX01"] false)
    (strBytes "TEXPRESSOX01") ⟨[], false⟩ (by decide)

/-- C7 counterexample: the claim as stated is false — the delivered
A_READ frame `u32(A_READ) u32(5) <5 bytes>` is not 12 bytes long. -/
theorem c7_twelve_byte_frame_false : c7ClaimCheck = false := by decide

/-- C7 (amended): encoding Answer{A_READ, size=5} with payload [1,2,3,4,5]
staged in the scratch buffer, then flushing, delivers to the stream
exactly `u32(A_READ) u32(5) 1 2 3 4 5` — 13 bytes, in that order. -/
theorem c7_encode_read_concrete : c7Check = true := by decide

/-- C8: for every sequence of writes on a channel followed by
`channel_flush`, the bytes delivered to the stream are exactly the prior
contents plus the concatenation, in call order, of the byte sequences
passed to `write_bytes` — regardless of how the writes split across the
4096-byte output staging buffer, including payloads larger than 4096
bytes. -/
theorem c8_writes_concatenate (t : Channel) (l : List (List Nat))
    (h : t.outBuf.length ≤ BUF_SIZE) :
    (channel_flush (List.foldl write_bytes t l)).sent = t.sent ++ t.outBuf ++ l.flatten ∧
    (channel_flush (List.foldl write_bytes t l)).outBuf = [] := by
  have hm := writeList_outSeq l t h
  have hc := cflush_spec (List.foldl write_bytes t l)
  unfold channel_flush
  refine ⟨?_, hc.2⟩
  rw [hc.1]
  have := hm.1
  unfold outSeq at this
  rw [this, List.append_assoc]

/-- Witness for C8 at a concrete channel and write list. -/
theorem c8_witness : (channel_flush (List.foldl write_bytes (mkChannel [] true) [[1, 2, 3], [4]])).sent
    = [] ++ [] ++ [[1, 2, 3], [4]].flatten :=
  (c8_writes_concatenate (mkChannel [] true) [[1, 2, 3], [4]] (by decide)).1

/-- C9: for every tag that is not one of the twelve query variants,
`channel_read_query`, after reading the tag and the timestamp, reaches
the fatal-abort branch — it neither returns successfully nor skips the
message. -/
theorem c9_unknown_tag_fatal (fuel : Nat) (t : Channel) (r : Query) (tag time : Nat)
    (extra : List Nat) (h32 : tag < 4294967296) (hmem : tag ∉ queryTags) :
    channel_read_query fuel { t with staged := u32Bytes tag ++ u32Bytes time ++ extra } r
      = .fatal := by
  simp only [queryTags, List.mem_cons, List.not_mem_nil, or_false, not_or] at hmem
  obtain ⟨n1, n2, n3, n4, n5, n6, n7, n8, n9, n10, n11, n12⟩ := hmem
  have h1 := try_read_u32_staged_full fuel
    { t with staged := u32Bytes tag ++ u32Bytes time ++ extra }
    (tag % 256) (tag / 256 % 256) (tag / 65536 % 256) (tag / 16777216 % 256)
    (u32Bytes time ++ extra) (by simp [u32Bytes])
  rw [leU32_u32Bytes tag h32] at h1
  have h2 := read_u32_staged_full fuel
    { t with staged := u32Bytes time ++ extra }
    (time % 256) (time / 256 % 256) (time / 65536 % 256) (time / 16777216 % 256)
    extra (by simp [u32Bytes])
  unfold channel_read_query
  rw [h1]
  simp only [Res.bind]
  rw [h2]
  simp only [Res.bind]
  rw [if_neg n1, if_neg n2, if_neg n3, if_neg n4, if_neg n5, if_neg n6, if_neg n7,
      if_neg n8, if_neg n9, if_neg n10, if_neg n11, if_neg n12]

/-- Witness for C9: tag 0 with timestamp 5 staged on a fresh channel. -/
theorem c9_witness :
    channel_read_query 0 { mkChannel [] true with staged := u32Bytes 0 ++ u32Bytes 5 ++ [] } q0
      = .fatal :=
  c9_unknown_tag_fatal 0 (mkChannel [] true) q0 0 5 [] (by decide) (by decide)

/-- C10: whenever `channel_read_query` returns false (no query pending),
the caller-supplied query record is returned unmodified and no unread
input is lost: the staged bytes and the stream's remaining byte content
are unchanged, so a later call can still decode whatever arrives. -/
theorem c10_false_leaves_channel_intact (fuel : Nat) (t : Channel) (r r' : Query) (t' : Channel)
    (h : channel_read_query fuel t r = .ok (false, r', t')) :
    r' = r ∧ t'.staged = t.staged ∧
    t'.istream.chunks.flatten = t.istream.chunks.flatten ∧
    t'.istream.closed = t.istream.closed := by
  obtain ⟨htry, hr⟩ := read_query_false_elim fuel t r r' t' h
  obtain ⟨hs, hs', -, -, -, hi⟩ := try_read_none_elim fuel t t' htry
  have hstream := inRead_nil_stream t.istream t'.istream hi
  exact ⟨hr, by rw [hs, hs'], hstream.1, hstream.2⟩

/-- Witness for C10 on a closed empty stream. -/
theorem c10_witness :
    q0 = q0 ∧ (mkChannel [] true).staged = (mkChannel [] true).staged ∧
    (mkChannel [] true).istream.chunks.flatten = (mkChannel [] true).istream.chunks.flatten ∧
    (mkChannel [] true).istream.closed = (mkChannel [] true).istream.closed :=
  c10_false_leaves_channel_intact 1 (mkChannel [] true) q0 q0 (mkChannel [] true) (by decide)
